import Mathlib

/-!
Verification of the chunked-download pipeline of `src/http/chunked_download.py`
(repository blackstream-x/odds-and-ends).

The script is shallowly embedded: bytes are `Nat`, byte strings are `List Nat`,
Python strings are `List Char`, the response stream is the list of byte
strings returned by the successive `http_response.read(chunk_size)` calls
(the loop stops at the first empty read), hash objects are modelled by the
list of chunks fed to them, floats are modelled by rationals, and exceptional
control flow (`ZeroDivisionError`) is modelled with `Except`.
-/

namespace ChunkedDownload

/-- A byte of the response body. -/
abbrev Byte := Nat

/-- One bounded-size slice of the response body, as returned by one read. -/
abbrev Chunk := List Byte

/-- Constant `MINIMUM_CHUNK_SIZE = 2**16` (line 92). -/
def MINIMUM_CHUNK_SIZE : Int := 2 ^ 16

/-- Constant `MAXIMUM_CHUNKS_NUMBER = 10000` (line 91). -/
def MAXIMUM_CHUNKS_NUMBER : Int := 10000

/-- Constant `RC_OK = 0` (line 108). -/
def RC_OK : Nat := 0

/-- Constant `DIRECTORY_INDEX = 'index.html'` (line 66). -/
def DIRECTORY_INDEX : List Char := "index.html".data

/-- Whitespace as recognized by Python `str.strip()` (ASCII subset). -/
def isPyWhitespace (c : Char) : Bool :=
  c = ' ' || c = '\t' || c = '\n' || c = '\r' || c = '\x0b' || c = '\x0c'

/-- Model of Python `str.strip()`: remove leading and trailing whitespace. -/
def strip (cs : List Char) : List Char :=
  ((cs.dropWhile isPyWhitespace).reverse.dropWhile isPyWhitespace).reverse

/-- Numeric value of a list of decimal digit characters. -/
def digitsToNat (cs : List Char) : Nat :=
  cs.foldl (fun acc c => 10 * acc + (c.toNat - 48)) 0

/-- Parse a nonempty all-digit character list; `none` otherwise. -/
def parseDigits (cs : List Char) : Option Nat :=
  if cs ≠ [] && cs.all Char.isDigit then some (digitsToNat cs) else none

/-- Model of Python `int(s)` on a stripped string: an optional sign followed
by a nonempty run of decimal digits; `none` models the `ValueError` raised on
any other input. -/
def pyInt (cs : List Char) : Option Int :=
  match cs with
  | [] => none
  | c :: rest =>
    if c = '-' then (parseDigits rest).map (fun n => -(n : Int))
    else if c = '+' then (parseDigits rest).map (fun n => (n : Int))
    else (parseDigits (c :: rest)).map (fun n => (n : Int))

/-- Lines 224-228: `int(http_response.info().getheader('Content-Length').strip())`.
`getheader` yields `None` for a missing header, so `.strip()` raises
`AttributeError`; a non-numeric value makes `int()` raise `ValueError`; both
are caught and leave `total_bytes = None` (modelled as `none`). -/
def total_bytes_of (content_length_header : Option (List Char)) : Option Int :=
  match content_length_header with
  | none => none
  | some s => pyInt (strip s)

/-- Is the character list an optionally signed nonempty run of decimal
digits, i.e. accepted by Python `int()` after stripping? -/
def is_int_literal (cs : List Char) : Bool :=
  match cs with
  | [] => false
  | c :: rest =>
    if c = '-' then !rest.isEmpty && rest.all Char.isDigit
    else if c = '+' then !rest.isEmpty && rest.all Char.isDigit
    else !(c :: rest).isEmpty && (c :: rest).all Char.isDigit

/-- Model of Python 2 `round` on a rational: half away from zero.
`int(round(x))` then converts the whole-valued float to an int. -/
def pyRoundRat (q : Rat) : Int :=
  if 0 ≤ q then ⌊q + 1 / 2⌋ else ⌈q - 1 / 2⌉

/-- Lines 224-236: the chunk size used for every read.  When the total is
unknown, `chunk_size = MINIMUM_CHUNK_SIZE` unconditionally (line 229),
overwriting any caller-supplied value; when the total is known, a `None`
chunk size is derived as `int(round(float(total_bytes) / MAXIMUM_CHUNKS_NUMBER))`
and any value below `MINIMUM_CHUNK_SIZE` is raised to the floor. -/
def effective_chunk_size (content_length_header : Option (List Char))
    (chunk_size : Option Int) : Int :=
  match total_bytes_of content_length_header with
  | none => MINIMUM_CHUNK_SIZE
  | some total_bytes =>
    let cs : Int :=
      match chunk_size with
      | none => pyRoundRat ((total_bytes : Rat) / (MAXIMUM_CHUNKS_NUMBER : Rat))
      | some c => c
    if cs < MINIMUM_CHUNK_SIZE then MINIMUM_CHUNK_SIZE else cs

/-- A hashlib hash object, abstracted by the exact sequence of chunks fed to
its `update` method; its digest depends only on the concatenation of these. -/
structure HashObj where
  chunks_fed : List Chunk
deriving DecidableEq

instance : Inhabited HashObj := ⟨HashObj.mk []⟩

/-- `update(chunk)`: absorb one more chunk of data. -/
def HashObj.update (h : HashObj) (chunk : Chunk) : HashObj :=
  HashObj.mk (h.chunks_fed ++ [chunk])

/-- `hexdigest()`: the digest of everything absorbed so far, for an arbitrary
digest function of the absorbed byte stream. -/
def HashObj.hexdigest (h : HashObj) (digestOf : List Byte → List Char) : List Char :=
  digestOf h.chunks_fed.flatten

/-- What one `display_progress` call writes (lines 173-205), with the numeric
content kept symbolic: either the bounded-mode bar (glyph counts, percentage,
elapsed and estimated remaining time) or the simple unbounded-mode line. -/
inductive ProgressLine where
  | bar (items_complete items_remaining : Nat) (percent_complete : Rat)
      (elapsed_time estimated_time_remaining : Rat)
  | simple (received_bytes : Nat) (elapsed_time : Rat)
deriving DecidableEq

/-- Model of Python `int()` on a float value: truncation toward zero. -/
def pyIntOfRat (q : Rat) : Int :=
  if 0 ≤ q then ⌊q⌋ else ⌈q⌉

/-- Lines 173-205, `display_progress`.  `total_bytes` is an `Option Int`
(`if total_bytes:` is Python truthiness, so `None` and `0` both select the
simple mode).  In bounded mode the ratio is clamped to at most `1.0`, the
estimated remaining time is `(FULL_RATIO - ratio) / ratio * elapsed`
(a `ZeroDivisionError`, modelled as `Except.error`, when the ratio is zero),
the bar shows `int(ratio * bar_width)` complete glyphs and
`bar_width - that` remaining glyphs (Python renders a non-positive glyph
count as the empty string, hence `Int.toNat`). -/
def display_progress (received_bytes : Nat) (elapsed_time : Rat)
    (bar_width : Nat) (total_bytes : Option Int) : Except Unit ProgressLine :=
  match total_bytes with
  | some t =>
    if t = 0 then Except.ok (ProgressLine.simple received_bytes elapsed_time)
    else
      let r0 : Rat := (received_bytes : Rat) / (t : Rat)
      let r : Rat := if 1 < r0 then 1 else r0
      if r = 0 then Except.error ()
      else
        let eta : Rat := (1 - r) / r * elapsed_time
        let bar_items_complete : Int := pyIntOfRat (r * (bar_width : Rat))
        let bar_items_remaining : Int := (bar_width : Int) - bar_items_complete
        Except.ok (ProgressLine.bar bar_items_complete.toNat bar_items_remaining.toNat
          (100 * r) elapsed_time eta)
  | none => Except.ok (ProgressLine.simple received_bytes elapsed_time)

/-- The mutable state of the download loop (lines 238-260): the checksum
mapping, the `saved_content` chunk list, the bytes written to the output
file handle, the received-byte counter, and the `received_bytes` argument of
each `display_progress` call made so far (the latter two side-effect streams
are recorded so that properties about them can be stated). -/
structure DownloadState where
  checksums : List (List Char × HashObj)
  saved_content : List Chunk
  file_written : List Byte
  received_bytes : Nat
  progress_calls : List Nat
deriving DecidableEq

/-- One iteration of the `while chunk:` body (lines 242-259): feed every
checksum accumulator, write to the output file or append to `saved_content`,
bump the byte counter, optionally record a progress call. -/
def process_chunk (has_output_file show_progress : Bool)
    (st : DownloadState) (chunk : Chunk) : DownloadState :=
  let rb := st.received_bytes + chunk.length
  { checksums := st.checksums.map (fun p => (p.1, p.2.update chunk)),
    saved_content :=
      if has_output_file then st.saved_content else st.saved_content ++ [chunk],
    file_written :=
      if has_output_file then st.file_written ++ chunk else st.file_written,
    received_bytes := rb,
    progress_calls :=
      if show_progress then st.progress_calls ++ [rb] else st.progress_calls }

/-- The read loop (lines 240-260): process successive reads until the first
empty chunk (or the end of the modelled read stream). -/
def download_loop (has_output_file show_progress : Bool) :
    List Chunk → DownloadState → DownloadState
  | [], st => st
  | chunk :: rest, st =>
    if chunk = [] then st
    else download_loop has_output_file show_progress rest
      (process_chunk has_output_file show_progress st chunk)

/-- The result namespace returned at line 268, extended with the recorded
side-effect streams and the chunk size that was passed to every read. -/
structure DownloadResult where
  checksums : List (List Char × HashObj)
  content : List Byte
  received_bytes : Nat
  returncode : Nat
  file_written : List Byte
  progress_calls : List Nat
  chunk_size_used : Int
deriving DecidableEq

/-- Lines 208-271, `download_chunks`.  `reads` is the sequence of byte
strings returned by the successive `http_response.read(chunk_size)` calls;
`content` is `EMPTY.join(saved_content)`. -/
def download_chunks (content_length_header : Option (List Char))
    (checksums : List (List Char × HashObj)) (chunk_size : Option Int)
    (has_output_file show_progress : Bool) (reads : List Chunk) : DownloadResult :=
  let size := effective_chunk_size content_length_header chunk_size
  let final := download_loop has_output_file show_progress reads
    { checksums := checksums, saved_content := [], file_written := [],
      received_bytes := 0, progress_calls := [] }
  { checksums := final.checksums,
    content := final.saved_content.flatten,
    received_bytes := final.received_bytes,
    returncode := RC_OK,
    file_written := final.file_written,
    progress_calls := final.progress_calls,
    chunk_size_used := size }

/-- Python `str.lower()` (ASCII). -/
def str_lower (cs : List Char) : List Char := cs.map Char.toLower

/-- Python `str.upper()` (ASCII). -/
def str_upper (cs : List Char) : List Char := cs.map Char.toUpper

/-- Python dict assignment `m[k] = v`: replace the value of an existing key,
otherwise add a new entry. -/
def dict_set (m : List (List Char × HashObj)) (k : List Char) (v : HashObj) :
    List (List Char × HashObj) :=
  if m.any (fun p => p.1 = k) then m.map (fun p => if p.1 = k then (k, v) else p)
  else m ++ [(k, v)]

/-- The body of the loop at lines 305-311: `hashlib.new(name.lower())`
succeeds exactly for supported algorithm names (`supported`); on success the
fresh hash object is stored under the upper-cased name, on `ValueError` the
name is recorded as a logged warning and processing continues. -/
def gcm_step (supported : List Char → Bool)
    (acc : List (List Char × HashObj) × List (List Char))
    (checksum_type : List Char) : List (List Char × HashObj) × List (List Char) :=
  if supported (str_lower checksum_type) then
    (dict_set acc.1 (str_upper checksum_type) (HashObj.mk []), acc.2)
  else (acc.1, acc.2 ++ [checksum_type])

/-- Lines 299-316, `get_checksums_mapping`.  Returns the mapping together
with the list of warned-about (unsupported) names; a `None` sequence raises
`TypeError`, which is caught and yields the empty mapping. -/
def get_checksums_mapping (supported : List Char → Bool)
    (checksums_sequence : Option (List (List Char))) :
    List (List Char × HashObj) × List (List Char) :=
  match checksums_sequence with
  | none => ([], [])
  | some seq => seq.foldl (gcm_step supported) ([], [])

/-- Does the character list end in a slash (`url_path.endswith(SLASH)`)? -/
def endsWithSlash (cs : List Char) : Bool := cs.getLast? = some '/'

/-- Model of `posixpath.split` from the stdlib: split at the final slash;
trailing slashes are stripped from the head unless the head consists only of
slashes. -/
def os_path_split (p : List Char) : List Char × List Char :=
  let tail := (p.reverse.takeWhile (fun c => c ≠ '/')).reverse
  let head := p.take (p.length - tail.length)
  let cleaned :=
    if head ≠ [] ∧ ¬ head.all (fun c => c = '/')
    then (head.reverse.dropWhile (fun c => c = '/')).reverse
    else head
  (cleaned, tail)

/-- Model of `posixpath.join` from the stdlib, for two components: an
absolute second component replaces the first, otherwise the components are
joined with a slash unless the first is empty or already ends in a slash. -/
def os_path_join (a b : List Char) : List Char :=
  if b.head? = some '/' then b
  else if a = [] ∨ a.getLast? = some '/' then a ++ b
  else a ++ '/' :: b

/-- May a character appear in a URL scheme? -/
def isSchemeChar (c : Char) : Bool := c.isAlphanum || c = '+' || c = '-' || c = '.'

/-- Model of `urlparse(url).path` from the stdlib, for http-style URLs: strip
a leading `scheme:` (a letter followed by scheme characters, then a colon),
skip a `//netloc` up to the next slash, and cut the remainder at the first
query or fragment delimiter. -/
def urlparse_path (url : List Char) : List Char :=
  let pre := url.takeWhile isSchemeChar
  let afterScheme : List Char :=
    match url.drop pre.length with
    | ':' :: rest =>
      if pre ≠ [] ∧ (pre.head?.map Char.isAlpha).getD false then rest else url
    | _ => url
  let afterNetloc : List Char :=
    match afterScheme with
    | '/' :: '/' :: rest =>
      rest.dropWhile (fun c => c ≠ '/' && c ≠ '?' && c ≠ '#')
    | other => other
  afterNetloc.takeWhile (fun c => c ≠ '?' && c ≠ '#')

/-- Lines 398-434, `determine_output_file_path`.  `isdir` abstracts the
filesystem query `os.path.isdir`, `cwd` abstracts `os.getcwd()`.  A `None`
output path makes `os.path.isdir` raise `TypeError`, caught at line 420,
leaving the directory unset; Python's falsiness conflates `None` and the
empty string, so both unset parts are modelled by `[]`. -/
def determine_output_file_path (isdir : List Char → Bool) (cwd : List Char)
    (output_path : Option (List Char)) (url : List Char)
    (default_file_name : List Char) : List Char :=
  let dir_and_name : List Char × List Char :=
    match output_path with
    | none => ([], [])
    | some p => if isdir p then (p, []) else os_path_split p
  let output_directory := if dir_and_name.1 = [] then cwd else dir_and_name.1
  let output_file_name :=
    if dir_and_name.2 = [] then
      let url_path := urlparse_path url
      if endsWithSlash url_path then default_file_name
      else List.getLastD (url_path.splitOn '/') []
    else dir_and_name.2
  os_path_join output_directory output_file_name

/-- Where the downloaded bytes go. -/
inductive Destination where
  | standard_out
  | file (path : List Char)
deriving DecidableEq

/-- Lines 343-345 of `save_to_file`: a falsy `output_file_path` (`None` or
the empty string) streams to standard output via `display_directly`;
otherwise the named file is opened and written. -/
def save_to_file_destination (output_file_path : Option (List Char)) : Destination :=
  match output_file_path with
  | none => Destination.standard_out
  | some p => if p = [] then Destination.standard_out else Destination.file p

/-- Lines 459-466 of `main`: the literal output path `'-'` selects standard
output (a `None` file path), anything else goes through
`determine_output_file_path`. -/
def main_output_file_path (isdir : List Char → Bool) (cwd : List Char)
    (output_path : Option (List Char)) (url : List Char) : Option (List Char) :=
  if output_path = some ['-'] then none
  else some (determine_output_file_path isdir cwd output_path url DIRECTORY_INDEX)

/-- The destination `main` hands the download to, composing lines 459-466
with the dispatch of `save_to_file`. -/
def main_destination (isdir : List Char → Bool) (cwd : List Char)
    (output_path : Option (List Char)) (url : List Char) : Destination :=
  save_to_file_destination (main_output_file_path isdir cwd output_path url)

/-- A concrete digest function used to instantiate witness statements. -/
def demoDigest : List Byte → List Char :=
  fun bs => bs.map (fun b => Char.ofNat (48 + b % 10))

/-- A concrete supported-algorithm predicate (a fragment of what
`hashlib.new` accepts), used to instantiate witness statements. -/
def demo_supported : List Char → Bool :=
  fun s => s == "md5".data || s == "sha1".data || s == "sha256".data

end ChunkedDownload

namespace ChunkedDownload

@[simp] theorem HashObj.mk_chunks_fed (h : HashObj) : HashObj.mk h.chunks_fed = h := rfl

theorem download_loop_checksums (hf sp : Bool) (reads : List Chunk)
    (st : DownloadState) (hne : ∀ c ∈ reads, c ≠ []) :
    (download_loop hf sp reads st).checksums =
      st.checksums.map (fun p => (p.1, HashObj.mk (p.2.chunks_fed ++ reads))) := by
  induction reads generalizing st with
  | nil => simp [download_loop]
  | cons c rest ih =>
    have hc : c ≠ [] := hne c (List.mem_cons_self c rest)
    have hrest : ∀ x ∈ rest, x ≠ [] := fun x hx => hne x (List.mem_cons_of_mem c hx)
    rw [download_loop, if_neg hc, ih _ hrest]
    simp [process_chunk, HashObj.update, List.map_map, Function.comp]

theorem download_loop_saved (hf sp : Bool) (reads : List Chunk)
    (st : DownloadState) (hne : ∀ c ∈ reads, c ≠ []) :
    (download_loop hf sp reads st).saved_content =
      st.saved_content ++ (if hf then [] else reads) := by
  induction reads generalizing st with
  | nil => simp [download_loop]
  | cons c rest ih =>
    have hc : c ≠ [] := hne c (List.mem_cons_self c rest)
    have hrest : ∀ x ∈ rest, x ≠ [] := fun x hx => hne x (List.mem_cons_of_mem c hx)
    rw [download_loop, if_neg hc, ih _ hrest]
    cases hf <;> simp [process_chunk]

theorem download_loop_written (hf sp : Bool) (reads : List Chunk)
    (st : DownloadState) (hne : ∀ c ∈ reads, c ≠ []) :
    (download_loop hf sp reads st).file_written =
      st.file_written ++ (if hf then reads.flatten else []) := by
  induction reads generalizing st with
  | nil => simp [download_loop]
  | cons c rest ih =>
    have hc : c ≠ [] := hne c (List.mem_cons_self c rest)
    have hrest : ∀ x ∈ rest, x ≠ [] := fun x hx => hne x (List.mem_cons_of_mem c hx)
    rw [download_loop, if_neg hc, ih _ hrest]
    cases hf <;> simp [process_chunk]

theorem download_loop_received (hf sp : Bool) (reads : List Chunk)
    (st : DownloadState) (hne : ∀ c ∈ reads, c ≠ []) :
    (download_loop hf sp reads st).received_bytes =
      st.received_bytes + reads.flatten.length := by
  induction reads generalizing st with
  | nil => simp [download_loop]
  | cons c rest ih =>
    have hc : c ≠ [] := hne c (List.mem_cons_self c rest)
    have hrest : ∀ x ∈ rest, x ≠ [] := fun x hx => hne x (List.mem_cons_of_mem c hx)
    rw [download_loop, if_neg hc, ih _ hrest]
    simp [process_chunk]
    omega

theorem download_loop_progress_calls_pos (hf sp : Bool) (reads : List Chunk)
    (st : DownloadState) (h : ∀ x ∈ st.progress_calls, 1 ≤ x) :
    ∀ x ∈ (download_loop hf sp reads st).progress_calls, 1 ≤ x := by
  induction reads generalizing st with
  | nil => simpa [download_loop] using h
  | cons c rest ih =>
    by_cases hc : c = []
    · simpa [download_loop, hc] using h
    · rw [download_loop, if_neg hc]
      apply ih
      intro x hx
      simp only [process_chunk] at hx
      rcases hsp : sp with _ | _
      · rw [hsp] at hx
        simp at hx
        exact h x hx
      · rw [hsp] at hx
        simp at hx
        rcases hx with hx | hx
        · exact h x hx
        · have : 0 < c.length := List.length_pos.mpr hc
          omega

/-- C1: with fresh accumulators (as produced by `get_checksums_mapping`),
every accumulator of the result of `download_chunks` has been fed exactly
the read chunks, once each and in stream order, so its finalized digest
(for any digest function of the absorbed byte stream) equals the digest of
the whole response body absorbed in a single update. -/
theorem C1_incremental_digest_eq_whole_buffer
    (content_length_header : Option (List Char)) (chunk_size : Option Int)
    (checksums : List (List Char × HashObj)) (has_output_file show_progress : Bool)
    (reads : List Chunk) (digestOf : List Byte → List Char)
    (hfresh : ∀ p ∈ checksums, p.2 = HashObj.mk [])
    (hne : ∀ c ∈ reads, c ≠ []) :
    ∀ p ∈ (download_chunks content_length_header checksums chunk_size
        has_output_file show_progress reads).checksums,
      p.2.chunks_fed = reads ∧
      p.2.hexdigest digestOf =
        (HashObj.update (HashObj.mk []) reads.flatten).hexdigest digestOf := by
  intro p hp
  simp only [download_chunks] at hp
  rw [download_loop_checksums _ _ _ _ hne] at hp
  simp only [List.mem_map] at hp
  obtain ⟨q, hq, rfl⟩ := hp
  rw [hfresh q hq]
  constructor
  · simp
  · simp [HashObj.hexdigest, HashObj.update]

/-- C1 witness: a two-chunk download with a single fresh MD5 accumulator. -/
theorem C1_witness :
    (("MD5".data, HashObj.mk [[1, 2], [3]]) :
        List Char × HashObj).2.chunks_fed = [[1, 2], [3]] ∧
    (("MD5".data, HashObj.mk [[1, 2], [3]]) :
        List Char × HashObj).2.hexdigest demoDigest =
      (HashObj.update (HashObj.mk []) [[1, 2], [3]].flatten).hexdigest demoDigest :=
  C1_incremental_digest_eq_whole_buffer none none [("MD5".data, HashObj.mk [])]
    false false [[1, 2], [3]] demoDigest (by decide) (by decide)
    ("MD5".data, HashObj.mk [[1, 2], [3]]) (by decide)

/-- C2: the bytes delivered to the destination are exactly the concatenation
of the read chunks: with an output file they are all written to it (and the
in-memory content stays empty), without one they are accumulated and
returned as the result's content. -/
theorem C2_destination_receives_body
    (content_length_header : Option (List Char)) (chunk_size : Option Int)
    (checksums : List (List Char × HashObj)) (show_progress : Bool)
    (reads : List Chunk) (hne : ∀ c ∈ reads, c ≠ []) :
    (download_chunks content_length_header checksums chunk_size
        true show_progress reads).file_written = reads.flatten ∧
    (download_chunks content_length_header checksums chunk_size
        false show_progress reads).content = reads.flatten ∧
    (download_chunks content_length_header checksums chunk_size
        true show_progress reads).content = [] := by
  refine ⟨?_, ?_, ?_⟩
  · simp only [download_chunks]
    rw [download_loop_written _ _ _ _ hne]
    simp
  · simp only [download_chunks]
    rw [download_loop_saved _ _ _ _ hne]
    simp
  · simp only [download_chunks]
    rw [download_loop_saved _ _ _ _ hne]
    simp

/-- C2 witness: a two-chunk body delivered to a file and to memory. -/
theorem C2_witness :
    (download_chunks none [] none true false [[1, 2], [3]]).file_written
        = [[1, 2], [3]].flatten ∧
    (download_chunks none [] none false false [[1, 2], [3]]).content
        = [[1, 2], [3]].flatten ∧
    (download_chunks none [] none true false [[1, 2], [3]]).content = [] :=
  C2_destination_receives_body none none [] false [[1, 2], [3]] (by decide)

end ChunkedDownload

namespace ChunkedDownload

/-- C3 counterexample: with the total size unknown, an explicit chunk-size
override of 1000 is ignored and the floor 2^16 = 65536 is used instead; with
a known total of 1000000 bytes, an override of 1024 below the floor is also
replaced by 65536. -/
theorem C3_counterexample :
    effective_chunk_size none (some 1000) = 65536 ∧ (1000 : Int) ≠ 65536 ∧
    effective_chunk_size (some ("1000000".data)) (some 1024) = 65536 ∧
    (1024 : Int) ≠ 65536 := by
  refine ⟨by decide, by decide, by decide, by decide⟩

/-- C3 amended: an explicit chunk-size override is the size used for every
read only when the Content-Length total is known and the override is at
least the minimum floor `MINIMUM_CHUNK_SIZE`; when the total is unknown the
floor is used regardless of the override. -/
theorem C3_override_used_only_when_total_known_and_at_least_floor
    (content_length_header : Option (List Char)) (t c : Int)
    (ht : total_bytes_of content_length_header = some t)
    (hc : MINIMUM_CHUNK_SIZE ≤ c) :
    effective_chunk_size content_length_header (some c) = c ∧
    (∀ c2 : Int, effective_chunk_size none (some c2) = MINIMUM_CHUNK_SIZE) := by
  constructor
  · unfold effective_chunk_size
    rw [ht]
    simp only []
    rw [if_neg (by omega)]
  · intro c2
    unfold effective_chunk_size
    rfl

/-- C3 amended witness: a known total of 1000000 bytes and an override of
70000 (above the 65536 floor) that is honored. -/
theorem C3_witness :
    total_bytes_of (some ("1000000".data)) = some 1000000 ∧
    MINIMUM_CHUNK_SIZE ≤ (70000 : Int) ∧
    effective_chunk_size (some ("1000000".data)) (some 70000) = 70000 :=
  ⟨by decide, by decide,
    (C3_override_used_only_when_total_known_and_at_least_floor
      (some ("1000000".data)) 1000000 70000 (by decide) (by decide)).1⟩

/-- C4: the chunk size actually used for reads is never below the floor
`MINIMUM_CHUNK_SIZE = 2^16`, and when the total size is unknown the floor
itself is the chunk size. -/
theorem C4_chunk_size_never_below_floor
    (content_length_header : Option (List Char)) (chunk_size : Option Int) :
    MINIMUM_CHUNK_SIZE ≤ effective_chunk_size content_length_header chunk_size ∧
    (total_bytes_of content_length_header = none →
      effective_chunk_size content_length_header chunk_size = MINIMUM_CHUNK_SIZE) := by
  constructor
  · unfold effective_chunk_size
    cases h : total_bytes_of content_length_header with
    | none => simp
    | some t =>
      simp only []
      split <;> omega
  · intro h
    unfold effective_chunk_size
    rw [h]

/-- C4 witness: no Content-Length header, no override. -/
theorem C4_witness :
    MINIMUM_CHUNK_SIZE ≤ effective_chunk_size none none ∧
    effective_chunk_size none none = MINIMUM_CHUNK_SIZE :=
  ⟨(C4_chunk_size_never_below_floor none none).1,
    (C4_chunk_size_never_below_floor none none).2 rfl⟩

/-- C7 counterexample: a Content-Length header of `"-5"` parses to the
negative total `-5`; it is not treated as unknown, contradicting the claim
that negative values fall into the unknown case. -/
theorem C7_counterexample :
    total_bytes_of (some ("-5".data)) = some (-5) ∧
    ¬ total_bytes_of (some ("-5".data)) = none ∧ (-5 : Int) < 0 := by
  refine ⟨by decide, by decide, by decide⟩

theorem pyInt_isSome_iff (cs : List Char) :
    (pyInt cs).isSome = is_int_literal cs := by
  cases cs with
  | nil => rfl
  | cons c rest =>
    simp only [pyInt, is_int_literal, parseDigits]
    split <;> split <;>
      simp_all [List.isEmpty_iff] <;>
      split <;> simp_all [List.isEmpty_iff]

/-- C7 amended: the total expected size is taken from the Content-Length
header exactly when the header is present and its stripped value is an
optionally signed nonempty run of decimal digits; a missing or non-numeric
header is treated as unknown without error, but a negative value such as
`"-5"` is accepted as the total rather than treated as unknown. -/
theorem C7_total_from_header_parsing (content_length_header : Option (List Char)) :
    ((total_bytes_of content_length_header).isSome = true ↔
      ∃ s, content_length_header = some s ∧ is_int_literal (strip s) = true) ∧
    total_bytes_of none = none ∧
    (∀ s ds, content_length_header = some s → strip s = '-' :: ds →
      ds ≠ [] → ds.all Char.isDigit = true →
      total_bytes_of content_length_header = some (-(digitsToNat ds : Int))) := by
  refine ⟨?_, rfl, ?_⟩
  · cases content_length_header with
    | none => simp [total_bytes_of]
    | some s =>
      simp only [total_bytes_of, pyInt_isSome_iff]
      constructor
      · intro h
        exact ⟨s, rfl, h⟩
      · rintro ⟨s2, hs2, h⟩
        cases hs2
        exact h
  · intro s ds hh hstrip hne hdigits
    cases hh
    simp [total_bytes_of, hstrip, pyInt, parseDigits, hne, hdigits]

/-- C7 amended witness: the header value `" -42 "` strips to `"-42"` and is
accepted as the (negative) total `-42`. -/
theorem C7_witness :
    total_bytes_of (some (" -42 ".data)) = some (-42) := by
  have h := (C7_total_from_header_parsing (some (" -42 ".data))).2.2
    (" -42 ".data) ("42".data) rfl (by decide) (by decide) (by decide)
  exact h.trans (by decide)

/-- Evaluation of `display_progress` in bounded mode with a positive total
and at least one received byte: the clamped ratio is `min (received/total) 1`,
the complete glyph count is the truncation of `ratio * bar_width`, and the
estimated remaining time is `(1 - ratio) / ratio * elapsed`. -/
theorem display_progress_bounded_eval (received t w : Nat) (elapsed : Rat)
    (h1 : 1 ≤ received) (h2 : 0 < t) :
    display_progress received elapsed w (some (t : Int)) =
      Except.ok (ProgressLine.bar
        (Int.toNat ⌊min ((received : Rat) / (t : Rat)) 1 * (w : Rat)⌋)
        (Int.toNat ((w : Int) - ⌊min ((received : Rat) / (t : Rat)) 1 * (w : Rat)⌋))
        (100 * min ((received : Rat) / (t : Rat)) 1) elapsed
        ((1 - min ((received : Rat) / (t : Rat)) 1) /
            min ((received : Rat) / (t : Rat)) 1 * elapsed)) := by
  have htne : (t : Int) ≠ 0 := by
    simp only [ne_eq, Int.natCast_eq_zero]
    omega
  have hrpos : 0 < (received : Rat) / (t : Rat) := by
    apply div_pos
    · have h0 : 0 < received := h1
      exact_mod_cast h0
    · exact_mod_cast h2
  have hminpos : 0 < min ((received : Rat) / (t : Rat)) 1 := lt_min hrpos one_pos
  have hif : (if 1 < (received : Rat) / (t : Rat) then (1 : Rat)
      else (received : Rat) / (t : Rat)) = min ((received : Rat) / (t : Rat)) 1 := by
    rcases le_or_lt ((received : Rat) / (t : Rat)) 1 with h | h
    · rw [if_neg (not_lt.mpr h), min_eq_left h]
    · rw [if_pos h, min_eq_right h.le]
  simp only [display_progress, pyIntOfRat, Int.cast_natCast, if_neg htne]
  rw [hif, if_neg hminpos.ne',
    if_pos (mul_nonneg hminpos.le (Nat.cast_nonneg w))]

/-- C8 counterexample: with 1 of 3 bytes received and a 20-column bar, the
code renders `int(20/3) = 6` complete glyphs whereas `round(ratio * width)`
is 7, so the bar is not `round(ratio * bar_width)` glyphs wide. -/
theorem C8_counterexample :
    display_progress 1 6 20 (some 3)
      = Except.ok (ProgressLine.bar 6 14 (100 / 3) 6 12) ∧
    round ((1 : Rat) / 3 * 20) = 7 ∧ (6 : Nat) ≠ 7 := by
  refine ⟨?_, by norm_num [round_eq], by decide⟩
  simp only [display_progress]
  norm_num [pyIntOfRat]
  decide

/-- C8 amended: in bounded mode the bar consists of `⌊ratio * bar_width⌋`
complete glyphs (truncation toward zero, not rounding) followed by
`bar_width` minus that many incomplete glyphs, where the ratio is
`received/total` clamped to at most 1; the complete count never exceeds the
bar width. -/
theorem C8_bar_glyph_counts (received t w : Nat) (elapsed : Rat)
    (h1 : 1 ≤ received) (h2 : 0 < t) :
    display_progress received elapsed w (some (t : Int)) =
      Except.ok (ProgressLine.bar
        (Int.toNat ⌊min ((received : Rat) / (t : Rat)) 1 * (w : Rat)⌋)
        (w - Int.toNat ⌊min ((received : Rat) / (t : Rat)) 1 * (w : Rat)⌋)
        (100 * min ((received : Rat) / (t : Rat)) 1) elapsed
        ((1 - min ((received : Rat) / (t : Rat)) 1) /
            min ((received : Rat) / (t : Rat)) 1 * elapsed)) ∧
    Int.toNat ⌊min ((received : Rat) / (t : Rat)) 1 * (w : Rat)⌋ ≤ w := by
  have hrpos : 0 < (received : Rat) / (t : Rat) := by
    apply div_pos
    · have h0 : 0 < received := h1
      exact_mod_cast h0
    · exact_mod_cast h2
  have hminpos : 0 < min ((received : Rat) / (t : Rat)) 1 := lt_min hrpos one_pos
  have hfl0 : 0 ≤ ⌊min ((received : Rat) / (t : Rat)) 1 * (w : Rat)⌋ :=
    Int.floor_nonneg.mpr (mul_nonneg hminpos.le (Nat.cast_nonneg w))
  have hflw : ⌊min ((received : Rat) / (t : Rat)) 1 * (w : Rat)⌋ ≤ (w : Int) := by
    have hle : min ((received : Rat) / (t : Rat)) 1 * (w : Rat) ≤ (w : Rat) :=
      mul_le_of_le_one_left (Nat.cast_nonneg w) (min_le_right _ 1)
    calc ⌊min ((received : Rat) / (t : Rat)) 1 * (w : Rat)⌋
        ≤ ⌊(w : Rat)⌋ := Int.floor_le_floor hle
      _ = (w : Int) := Int.floor_natCast w
  constructor
  · rw [display_progress_bounded_eval received t w elapsed h1 h2]
    have heq : Int.toNat ((w : Int) - ⌊min ((received : Rat) / (t : Rat)) 1 * (w : Rat)⌋)
        = w - Int.toNat ⌊min ((received : Rat) / (t : Rat)) 1 * (w : Rat)⌋ := by
      omega
    rw [heq]
  · omega

/-- C8 amended witness: 1 of 3 bytes received, 20-column bar. -/
theorem C8_witness :
    display_progress 1 6 20 (some ((3 : Nat) : Int)) =
      Except.ok (ProgressLine.bar
        (Int.toNat ⌊min (((1 : Nat) : Rat) / ((3 : Nat) : Rat)) 1 * ((20 : Nat) : Rat)⌋)
        (20 - Int.toNat ⌊min (((1 : Nat) : Rat) / ((3 : Nat) : Rat)) 1 * ((20 : Nat) : Rat)⌋)
        (100 * min (((1 : Nat) : Rat) / ((3 : Nat) : Rat)) 1) 6
        ((1 - min (((1 : Nat) : Rat) / ((3 : Nat) : Rat)) 1) /
            min (((1 : Nat) : Rat) / ((3 : Nat) : Rat)) 1 * 6)) ∧
    Int.toNat ⌊min (((1 : Nat) : Rat) / ((3 : Nat) : Rat)) 1 * ((20 : Nat) : Rat)⌋ ≤ 20 :=
  C8_bar_glyph_counts 1 3 20 6 (by norm_num) (by norm_num)

/-- C9 counterexample: with total known (5) and zero bytes received, the
ratio is 0 and `display_progress` performs the division anyway, raising
`ZeroDivisionError` (modelled as `Except.error ()`) instead of skipping the
estimated-remaining-time computation. -/
theorem C9_counterexample :
    display_progress 0 6 20 (some 5) = Except.error () := by
  simp only [display_progress]
  norm_num

/-- C9 amended: in bounded mode with at least one byte received, the
estimated remaining time equals `elapsed * (1 - ratio) / ratio`; when zero
bytes have been received with a nonzero total, `display_progress` raises
`ZeroDivisionError` rather than skipping the computation; however
`download_chunks` calls `display_progress` only after adding a nonempty
chunk, so every call during a download has `received_bytes ≥ 1` and the
division by zero is unreachable from the download loop. -/
theorem C9_eta_formula_and_zero_division (received t w : Nat) (elapsed : Rat)
    (h1 : 1 ≤ received) (h2 : 0 < t) :
    (∃ items_complete items_remaining pct,
      display_progress received elapsed w (some (t : Int)) =
        Except.ok (ProgressLine.bar items_complete items_remaining pct elapsed
          ((1 - min ((received : Rat) / (t : Rat)) 1) /
              min ((received : Rat) / (t : Rat)) 1 * elapsed))) ∧
    display_progress 0 elapsed w (some (t : Int)) = Except.error () ∧
    (∀ (content_length_header : Option (List Char)) (chunk_size : Option Int)
        (checksums : List (List Char × HashObj)) (has_output_file : Bool)
        (reads : List Chunk),
      ∀ rb ∈ (download_chunks content_length_header checksums chunk_size
          has_output_file true reads).progress_calls, 1 ≤ rb) := by
  have htne : (t : Int) ≠ 0 := by
    simp only [ne_eq, Int.natCast_eq_zero]
    omega
  refine ⟨⟨_, _, _, display_progress_bounded_eval received t w elapsed h1 h2⟩, ?_, ?_⟩
  · simp only [display_progress, if_neg htne, Nat.cast_zero, zero_div]
    norm_num
  · intro header cs_arg checksums hf reads rb hrb
    simp only [download_chunks] at hrb
    exact download_loop_progress_calls_pos hf true reads _ (by simp) rb hrb

/-- C9 amended witness: 1 of 5 bytes received, 20-column bar. -/
theorem C9_witness :
    (∃ items_complete items_remaining pct,
      display_progress 1 6 20 (some ((5 : Nat) : Int)) =
        Except.ok (ProgressLine.bar items_complete items_remaining pct 6
          ((1 - min (((1 : Nat) : Rat) / ((5 : Nat) : Rat)) 1) /
              min (((1 : Nat) : Rat) / ((5 : Nat) : Rat)) 1 * 6))) ∧
    display_progress 0 6 20 (some ((5 : Nat) : Int)) = Except.error () ∧
    (∀ (content_length_header : Option (List Char)) (chunk_size : Option Int)
        (checksums : List (List Char × HashObj)) (has_output_file : Bool)
        (reads : List Chunk),
      ∀ rb ∈ (download_chunks content_length_header checksums chunk_size
          has_output_file true reads).progress_calls, 1 ≤ rb) :=
  C9_eta_formula_and_zero_division 1 5 20 6 (by norm_num) (by norm_num)

theorem dict_set_map_fst (m : List (List Char × HashObj)) (k : List Char) (v : HashObj) :
    (dict_set m k v).map Prod.fst =
      if k ∈ m.map Prod.fst then m.map Prod.fst else m.map Prod.fst ++ [k] := by
  unfold dict_set
  by_cases h : m.any (fun p => p.1 = k)
  · have hmem : k ∈ m.map Prod.fst := by
      simp only [List.any_eq_true, decide_eq_true_eq] at h
      obtain ⟨p, hp, hpk⟩ := h
      exact List.mem_map.mpr ⟨p, hp, hpk⟩
    rw [if_pos h, if_pos hmem, List.map_map]
    apply List.map_congr_left
    intro p hp
    by_cases hk : p.1 = k
    · simp [hk]
    · simp [hk]
  · have hmem : k ∉ m.map Prod.fst := by
      simp only [List.any_eq_true, decide_eq_true_eq] at h
      intro hk
      obtain ⟨p, hp, hpk⟩ := List.mem_map.mp hk
      exact h ⟨p, hp, hpk⟩
    rw [if_neg h, if_neg hmem, List.map_append]
    rfl

theorem dict_set_mem_fst (m : List (List Char × HashObj)) (k : List Char)
    (v : HashObj) (k2 : List Char) :
    k2 ∈ (dict_set m k v).map Prod.fst ↔ k2 ∈ m.map Prod.fst ∨ k2 = k := by
  rw [dict_set_map_fst]
  by_cases h : k ∈ m.map Prod.fst
  · rw [if_pos h]
    constructor
    · exact Or.inl
    · rintro (h2 | rfl)
      exacts [h2, h]
  · rw [if_neg h]
    simp

theorem gcm_step_pos (supported : List Char → Bool)
    (acc : List (List Char × HashObj) × List (List Char)) (n : List Char)
    (h : supported (str_lower n) = true) :
    gcm_step supported acc n = (dict_set acc.1 (str_upper n) (HashObj.mk []), acc.2) := by
  simp [gcm_step, h]

theorem gcm_step_neg (supported : List Char → Bool)
    (acc : List (List Char × HashObj) × List (List Char)) (n : List Char)
    (h : supported (str_lower n) = false) :
    gcm_step supported acc n = (acc.1, acc.2 ++ [n]) := by
  simp [gcm_step, h]

theorem gcm_fold_warnings (supported : List Char → Bool) (names : List (List Char))
    (acc : List (List Char × HashObj) × List (List Char)) :
    (names.foldl (gcm_step supported) acc).2 =
      acc.2 ++ names.filter (fun n => !supported (str_lower n)) := by
  induction names generalizing acc with
  | nil => simp
  | cons n rest ih =>
    by_cases h : supported (str_lower n) = true
    · rw [List.foldl_cons, gcm_step_pos supported acc n h, ih]
      simp [List.filter_cons, h]
    · have hf : supported (str_lower n) = false := by simpa using h
      rw [List.foldl_cons, gcm_step_neg supported acc n hf, ih]
      simp [List.filter_cons, hf]

theorem gcm_fold_keys (supported : List Char → Bool) (names : List (List Char))
    (acc : List (List Char × HashObj) × List (List Char)) (k : List Char) :
    k ∈ (names.foldl (gcm_step supported) acc).1.map Prod.fst ↔
      k ∈ acc.1.map Prod.fst ∨
        ∃ n ∈ names, supported (str_lower n) = true ∧ str_upper n = k := by
  induction names generalizing acc with
  | nil => simp
  | cons n rest ih =>
    by_cases h : supported (str_lower n) = true
    · rw [List.foldl_cons, gcm_step_pos supported acc n h, ih]
      simp only [dict_set_mem_fst, List.exists_mem_cons_iff, h, true_and]
      constructor
      · rintro (⟨h2 | rfl⟩ | h2)
        · exact Or.inl h2
        · exact Or.inr (Or.inl rfl)
        · exact Or.inr (Or.inr h2)
      · rintro (h2 | rfl | h2)
        · exact Or.inl (Or.inl h2)
        · exact Or.inl (Or.inr rfl)
        · exact Or.inr h2
    · have hf : supported (str_lower n) = false := by simpa using h
      rw [List.foldl_cons, gcm_step_neg supported acc n hf, ih]
      simp [List.exists_mem_cons_iff, hf]

/-- C6: every unsupported checksum name is individually skipped with a
logged warning (the warning list is exactly the unsupported names, in
order), processing of the remaining names continues, and the returned
mapping holds accumulators exactly for the upper-cased supported names of
the requested list. -/
theorem C6_unsupported_checksums_skipped (supported : List Char → Bool)
    (names : List (List Char)) :
    (get_checksums_mapping supported (some names)).2 =
      names.filter (fun n => !supported (str_lower n)) ∧
    (∀ k ∈ (get_checksums_mapping supported (some names)).1.map Prod.fst,
      ∃ n ∈ names, supported (str_lower n) = true ∧ str_upper n = k) ∧
    (∀ n ∈ names, supported (str_lower n) = true →
      str_upper n ∈ (get_checksums_mapping supported (some names)).1.map Prod.fst) := by
  refine ⟨?_, ?_, ?_⟩
  · simpa [get_checksums_mapping] using gcm_fold_warnings supported names ([], [])
  · intro k hk
    have h := (gcm_fold_keys supported names ([], []) k).mp
      (by simpa [get_checksums_mapping] using hk)
    simpa using h
  · intro n hn hsup
    have h := (gcm_fold_keys supported names ([], []) (str_upper n)).mpr
      (Or.inr ⟨n, hn, hsup, rfl⟩)
    simpa [get_checksums_mapping] using h

/-- C6 witness: the request `['bogus', 'sha256']` against the standard
algorithms warns exactly about `'bogus'` and keeps an accumulator under
`'SHA256'`. -/
theorem C6_witness :
    demo_supported (str_lower ("sha256".data)) = true ∧
    (get_checksums_mapping demo_supported (some ["bogus".data, "sha256".data])).2 =
      ["bogus".data, "sha256".data].filter (fun n => !demo_supported (str_lower n)) ∧
    ["bogus".data, "sha256".data].filter (fun n => !demo_supported (str_lower n)) =
      ["bogus".data] ∧
    str_upper ("sha256".data) ∈
      (get_checksums_mapping demo_supported
        (some ["bogus".data, "sha256".data])).1.map Prod.fst :=
  ⟨by decide,
    (C6_unsupported_checksums_skipped demo_supported ["bogus".data, "sha256".data]).1,
    by decide,
    (C6_unsupported_checksums_skipped demo_supported
      ["bogus".data, "sha256".data]).2.2 ("sha256".data) (by decide) (by decide)⟩

/-- C5: destination resolution.  If `output_path` names an existing
directory, the result is that directory joined with the final segment of the
URL's path after the last slash, or with the default file name when the URL
path ends in a slash; if `output_path` is not a directory it is split into a
directory part and a file-name part, and an empty directory part defaults to
the current working directory. -/
theorem C5_output_path_resolution (isdir : List Char → Bool) (cwd url p : List Char) :
    (isdir p = true → p ≠ [] → endsWithSlash (urlparse_path url) = false →
      determine_output_file_path isdir cwd (some p) url DIRECTORY_INDEX =
        os_path_join p (List.getLastD ((urlparse_path url).splitOn '/') [])) ∧
    (isdir p = true → p ≠ [] → endsWithSlash (urlparse_path url) = true →
      determine_output_file_path isdir cwd (some p) url DIRECTORY_INDEX =
        os_path_join p DIRECTORY_INDEX) ∧
    (isdir p = false → (os_path_split p).2 ≠ [] →
      determine_output_file_path isdir cwd (some p) url DIRECTORY_INDEX =
        os_path_join (if (os_path_split p).1 = [] then cwd else (os_path_split p).1)
          (os_path_split p).2) := by
  refine ⟨?_, ?_, ?_⟩
  · intro hdir hp hurl
    simp [determine_output_file_path, hdir, hp, hurl]
  · intro hdir hp hurl
    simp [determine_output_file_path, hdir, hp, hurl]
  · intro hdir hsplit
    simp [determine_output_file_path, hdir, hsplit]

/-- C5 witness: an existing directory `/downloads` and the URL
`https://example.com/reports/q3.csv` resolve to `/downloads/q3.csv`. -/
theorem C5_witness :
    ((fun s => s == ("/downloads".data : List Char)) ("/downloads".data) = true) ∧
    ("/downloads".data : List Char) ≠ [] ∧
    endsWithSlash (urlparse_path ("https://example.com/reports/q3.csv".data)) = false ∧
    determine_output_file_path (fun s => s == ("/downloads".data : List Char))
        ("/home/user".data) (some ("/downloads".data))
        ("https://example.com/reports/q3.csv".data) DIRECTORY_INDEX
      = "/downloads/q3.csv".data := by
  refine ⟨by decide, by decide, by decide, ?_⟩
  have h := (C5_output_path_resolution (fun s => s == ("/downloads".data : List Char))
    ("/home/user".data) ("https://example.com/reports/q3.csv".data)
    ("/downloads".data)).1 (by decide) (by decide) (by decide)
  exact h.trans (by decide)

theorem os_path_join_ne_nil (a b : List Char) (h : a ≠ []) : os_path_join a b ≠ [] := by
  unfold os_path_join
  split
  · rename_i hb
    intro hb2
    rw [hb2] at hb
    simp at hb
  · split
    · simp [h]
    · simp

/-- C10: with no output path supplied at all (`None`, as opposed to the
`'-'` sentinel), `main` still resolves a file destination: the current
working directory joined with the URL-derived file name.  The content is
neither streamed to standard output nor kept only in memory. -/
theorem C10_default_destination_is_cwd_file (isdir : List Char → Bool)
    (cwd url : List Char) (hcwd : cwd ≠ []) :
    main_destination isdir cwd none url =
      Destination.file (os_path_join cwd
        (if endsWithSlash (urlparse_path url) then DIRECTORY_INDEX
         else List.getLastD ((urlparse_path url).splitOn '/') [])) := by
  have hdet : determine_output_file_path isdir cwd none url DIRECTORY_INDEX =
      os_path_join cwd
        (if endsWithSlash (urlparse_path url) then DIRECTORY_INDEX
         else List.getLastD ((urlparse_path url).splitOn '/') []) := by
    simp [determine_output_file_path]
  unfold main_destination main_output_file_path
  rw [if_neg (by simp), hdet]
  simp only [save_to_file_destination]
  rw [if_neg (os_path_join_ne_nil cwd _ hcwd)]

/-- C10 witness: `cwd = /home/user` and the example URL resolve to the file
`/home/user/q3.csv`. -/
theorem C10_witness :
    main_destination (fun _ => false) ("/home/user".data) none
        ("https://example.com/reports/q3.csv".data)
      = Destination.file ("/home/user/q3.csv".data) := by
  have h := C10_default_destination_is_cwd_file (fun _ => false) ("/home/user".data)
    ("https://example.com/reports/q3.csv".data) (by decide)
  exact h.trans (by decide)

end ChunkedDownload
